import Mathlib

/-!
Shallow embedding of the RAG-Application repository
(src/ingest_pdfs_blob.py and src/rag_chatbot_app.py).

External collaborators (Azure Blob Storage, PyPDF2's PdfReader, the Azure
OpenAI embedding and chat endpoints, Azure Cognitive Search) are modelled as
oracle parameters: a function or a value describing the outcome the external
service produces.  `Except String α` models a Python call that either returns
a value or raises an exception carrying message `String`; an `Except.error`
that is never caught models an exception propagating out of the function.
-/

/-- Worker for `pySplit`: walk the characters with `acc` holding the current
word's characters in reverse; a whitespace character ends the current word (if
any), any other character extends it. -/
def splitWordsAux : List Char → List Char → List String
  | [], acc => if acc.isEmpty then [] else [String.mk acc.reverse]
  | c :: cs, acc =>
    if c.isWhitespace then
      if acc.isEmpty then splitWordsAux cs []
      else String.mk acc.reverse :: splitWordsAux cs []
    else
      splitWordsAux cs (c :: acc)

/-- Python `text.split()` (src/ingest_pdfs_blob.py line 61): the maximal runs
of non-whitespace characters, in order — runs of whitespace and leading or
trailing whitespace produce no empty words. -/
def pySplit (text : String) : List String := splitWordsAux text.data []

/-- The `while start < len(words)` loop of `chunk_text`
(src/ingest_pdfs_blob.py lines 63-68), fuel-indexed: each iteration takes the
slice `words[start:start + chunk_size]` (in Lean: `(words.drop start).take
chunk_size`), joins it with single spaces, and advances `start` by
`chunk_size - overlap`.  `none` means the fuel ran out before the loop
finished; the Python loop has no other exit, so a configuration on which every
fuel yields `none` is one on which the Python loop never terminates.
Python's `start += chunk_size - overlap` does not advance when
`overlap >= chunk_size` (for `overlap > chunk_size` the Python value of
`start` goes negative while ours stays put via truncated subtraction; in both
accounts the loop runs forever, which is the observable this embedding keeps). -/
def chunkLoop (words : List String) (chunk_size overlap : Nat) :
    Nat → Nat → Option (List String)
  | _, 0 => none
  | start, fuel + 1 =>
    if start < words.length then
      match chunkLoop words chunk_size overlap (start + (chunk_size - overlap)) fuel with
      | none => none
      | some rest => some (" ".intercalate ((words.drop start).take chunk_size) :: rest)
    else
      some []

/-- The same loop with the `" ".join` left off: it returns the word slices
`words[start:start + chunk_size]` themselves.  `chunkLoop_eq_slices` below
proves it agrees with `chunkLoop` chunk by chunk. -/
def chunkSlices (words : List String) (chunk_size overlap : Nat) :
    Nat → Nat → Option (List (List String))
  | _, 0 => none
  | start, fuel + 1 =>
    if start < words.length then
      match chunkSlices words chunk_size overlap (start + (chunk_size - overlap)) fuel with
      | none => none
      | some rest => some ((words.drop start).take chunk_size :: rest)
    else
      some []

/-- `chunk_text(text, chunk_size, overlap)` (src/ingest_pdfs_blob.py lines
60-69).  The loop is run with fuel `words.length + 1`, which suffices whenever
`overlap < chunk_size` (lemma `chunk_text_isSome` below); `none` reports that
the source's loop does not terminate within that budget. -/
def chunk_text (text : String) (chunk_size overlap : Nat) : Option (List String) :=
  let words := pySplit text
  chunkLoop words chunk_size overlap 0 (words.length + 1)

/-- Python `s.endswith(suffix)` (src/ingest_pdfs_blob.py line 75), expressed
on the character lists so that it evaluates by kernel reduction. -/
def pyEndsWith (s suffix : String) : Bool :=
  List.isSuffixOf suffix.data s.data

/-- One page of a parsed PDF: `page.extract_text()` returns either a string or
`None`; `none` models `None`. -/
abbrev PageText := Option String

/-- `read_pdf_from_blob` (src/ingest_pdfs_blob.py lines 49-58) after the
external download and parse: concatenate every page's extracted text followed
by a newline, skipping pages whose `extract_text()` was falsy (`None` or the
empty string). -/
def read_pdf_from_blob (pages : List PageText) : String :=
  pages.foldl
    (fun text page =>
      match page with
      | some page_text => if page_text = "" then text else text ++ page_text ++ "\n"
      | none => text)
    ""

/-- A blob as the ingestion loop sees it: its name, and the outcome of
downloading and parsing it with `PdfReader` (src/ingest_pdfs_blob.py lines
50-51) — either the pages' texts, or an exception (`Except.error`). -/
structure BlobDoc where
  name : String
  parse : Except String (List PageText)
deriving Repr

/-- One batch uploaded by `search_client.upload_documents`
(src/ingest_pdfs_blob.py line 118): the blob it came from and its records.
Each record in the source is `{"id": str(uuid.uuid4()), "content": chunk,
"embedding": vector}`; the opaque fresh uuid is omitted and a record is kept
as (content, embedding). -/
structure UploadBatch where
  blobName : String
  records : List (String × List Int)
deriving Repr

/-- The inner `for chunk in chunks` loop (src/ingest_pdfs_blob.py lines
83-97): embed each chunk in order, building `docs_to_upload`; an exception
from the embedding call propagates (nothing catches it). -/
def embedChunks (embed : String → Except String (List Int)) :
    List String → Except String (List (String × List Int))
  | [] => .ok []
  | chunk :: rest =>
    match embed chunk with
    | .error e => .error e
    | .ok vector =>
      match embedChunks embed rest with
      | .error e => .error e
      | .ok docs => .ok ((chunk, vector) :: docs)

/-- The top-level ingestion loop (src/ingest_pdfs_blob.py lines 74-121):
for each blob whose name ends in ".pdf", parse it, chunk the text with the
defaults `chunk_size=500, overlap=50`, embed every chunk, and upload the batch
if it is non-empty.  No exception is caught anywhere in the script, so the
first parse or embedding failure stops the whole run: the result is the list
of batches uploaded before the crash, paired with `some e` for the uncaught
exception (or `none` if the run finished).  With overlap 50 < chunk size 500
the chunking loop always terminates, so `.getD []` never supplies its
default (lemma `chunk_text_isSome`). -/
def ingest (embed : String → Except String (List Int)) :
    List BlobDoc → List UploadBatch × Option String
  | [] => ([], none)
  | blob :: blobs =>
    if pyEndsWith blob.name ".pdf" then
      match blob.parse with
      | .error e => ([], some e)
      | .ok pages =>
        let text := read_pdf_from_blob pages
        let chunks := (chunk_text text 500 50).getD []
        match embedChunks embed chunks with
        | .error e => ([], some e)
        | .ok docs_to_upload =>
          let rest := ingest embed blobs
          if docs_to_upload ≠ [] then
            (⟨blob.name, docs_to_upload⟩ :: rest.1, rest.2)
          else
            rest
    else
      ingest embed blobs

/-- A chat message `{"role": ..., "content": ...}` (src/rag_chatbot_app.py). -/
structure Msg where
  role : String
  content : String
deriving DecidableEq, Repr

/-- The fixed system instruction appended to the working copy
(src/rag_chatbot_app.py lines 71-78). -/
def systemMsg : Msg :=
  ⟨"system",
    "You are a helpful assistant. Use the provided context to answer questions accurately. " ++
    "If the context is insufficient, give the most careful, concise answer possible. " ++
    "Do not hallucinate beyond the context."⟩

/-- The search oracle: `search_client.search(search_text=query, top=top_k)`
(src/rag_chatbot_app.py lines 47-50) either raises or returns the results,
each with `r.get("content")` being a string or `None`. -/
abbrev SearchOracle := String → Nat → Except String (List (Option String))

/-- The `for r in results` loop of `get_top_chunks` (src/rag_chatbot_app.py
lines 51-55): keep, in order, every result whose `content` is truthy (present
and non-empty). -/
def topChunks (results : List (Option String)) : List String :=
  results.foldl
    (fun chunks r =>
      match r with
      | some content => if content = "" then chunks else chunks ++ [content]
      | none => chunks)
    []

/-- `get_top_chunks(query, top_k)` (src/rag_chatbot_app.py lines 46-56):
run the search (an exception propagates — nothing catches it), then filter
the results' contents. -/
def get_top_chunks (search : SearchOracle) (query : String) (top_k : Nat) :
    Except String (List String) :=
  match search query top_k with
  | .error e => .error e
  | .ok results => .ok (topChunks results)

/-- The completion oracle: `openai.chat.completions.create(...)` followed by
`response.choices[0].message.content` (src/rag_chatbot_app.py lines 87-93);
`Except.error e` models any exception `e` raised by the call. -/
abbrev CompleteOracle := List Msg → Except String String

/-- The ephemeral context-injection user message appended to the working copy
(src/rag_chatbot_app.py lines 81-84): `f"Context:\n{context_text}\n\nQuestion:
{user_query}"`. -/
def contextMsg (context_text user_query : String) : Msg :=
  ⟨"user", "Context:\n" ++ context_text ++ "\n\nQuestion: " ++ user_query⟩

/-- The `context_text` value of `generate_answer` (src/rag_chatbot_app.py
line 64) as a function of the search results. -/
def contextText (results : List (Option String)) : String :=
  if topChunks results ≠ [] then "\n".intercalate (topChunks results) else ""

/-- The full working message sequence `messages` handed to the completion call
(src/rag_chatbot_app.py lines 70-84): the deep copy of the history with the
system message and then the context-injection message appended. -/
def promptMsgs (user_query : String) (chat_history : List Msg)
    (results : List (Option String)) : List Msg :=
  (chat_history ++ [systemMsg]) ++ [contextMsg (contextText results) user_query]

/-- The `answer` value of `generate_answer` (src/rag_chatbot_app.py lines
86-95) as a function of the oracles: the completion's text, or the
`f"Error generating response: {e}"` string the `except` branch substitutes. -/
def genAnswer (complete : CompleteOracle) (user_query : String)
    (chat_history : List Msg) (results : List (Option String)) : String :=
  match complete (promptMsgs user_query chat_history results) with
  | .ok a => a
  | .error e => "Error generating response: " ++ e

/-- `generate_answer(user_query, chat_history)` (src/rag_chatbot_app.py lines
61-101).  `copy.deepcopy(chat_history)` gives the working copy `messages` no
sharing with the caller's list, so appends to it are ordinary list extension
of a separate value; the two final `chat_history.append(...)` calls (lines
98-99) extend the caller's list itself, and that same (now longer) list is
returned.  The `try`/`except` covers only the completion call: an exception
from `get_top_chunks` propagates out (`Except.error`). -/
def generate_answer (search : SearchOracle) (complete : CompleteOracle)
    (user_query : String) (chat_history : List Msg) :
    Except String (String × List Msg) :=
  match get_top_chunks search user_query 10 with
  | .error e => .error e
  | .ok context_chunks =>
    let context_text := if context_chunks ≠ [] then "\n".intercalate context_chunks else ""
    let messages := chat_history
    let messages := messages ++ [systemMsg]
    let messages := messages ++ [contextMsg context_text user_query]
    let answer :=
      match complete messages with
      | .ok a => a
      | .error e => "Error generating response: " ++ e
    let chat_history := chat_history ++ [⟨"user", user_query⟩, ⟨"assistant", answer⟩]
    .ok (answer, chat_history)

/-- The values an observer aliasing the caller's `chat_history` list sees over
the course of one `generate_answer` call, one entry per statement of the
function body (src/rag_chatbot_app.py lines 61-101), the last entry being the
state at the `return`:
entry 0 — on entry; 1 — after `get_top_chunks` (line 63); 2 — after
`copy.deepcopy` (line 70); 3 — after the system-message append to the copy
(line 71); 4 — after the context-message append to the copy (line 81);
5 — after the `try`/`except` completion (lines 86-95); 6 — after
`chat_history.append({"role": "user", ...})` (line 98); 7 — after
`chat_history.append({"role": "assistant", ...})` (line 99).
If the search raises, the call aborts at entry 1 with the list untouched. -/
def generate_answer_origTrace (search : SearchOracle) (complete : CompleteOracle)
    (user_query : String) (chat_history : List Msg) : List (List Msg) :=
  match get_top_chunks search user_query 10 with
  | .error _ => [chat_history, chat_history]
  | .ok context_chunks =>
    let context_text := if context_chunks ≠ [] then "\n".intercalate context_chunks else ""
    let messages := chat_history
    let messages := messages ++ [systemMsg]
    let messages := messages ++ [contextMsg context_text user_query]
    let answer :=
      match complete messages with
      | .ok a => a
      | .error e => "Error generating response: " ++ e
    [chat_history, chat_history, chat_history, chat_history, chat_history, chat_history,
      chat_history ++ [⟨"user", user_query⟩],
      chat_history ++ [⟨"user", user_query⟩, ⟨"assistant", answer⟩]]

/-! Concrete inputs used by witnesses and counterexamples. -/

/-- A text of `n + 1` words, each the single letter "a", built by appending
one word at a time; `pySplit_aText` computes its word list. -/
def aText : Nat → String
  | 0 => "a"
  | n + 1 => aText n ++ " a"

/-- An embedding oracle that always succeeds with a fixed vector. -/
def embedOK : String → Except String (List Int) := fun _ => .ok [0]

/-- A healthy one-page pdf blob named "a.pdf". -/
def docA : BlobDoc := ⟨"a.pdf", .ok [some "hello world"]⟩

/-- A blob named "b.pdf" whose download/parse raises "corrupt". -/
def docB : BlobDoc := ⟨"b.pdf", .error "corrupt"⟩

/-- A healthy one-page pdf blob named "c.pdf". -/
def docC : BlobDoc := ⟨"c.pdf", .ok [some "more text"]⟩

/-- A search oracle that succeeds with zero results. -/
def searchEmpty : SearchOracle := fun _ _ => .ok []

/-- A search oracle whose call raises "search down". -/
def searchDown : SearchOracle := fun _ _ => .error "search down"

/-- A completion oracle that always answers "fine". -/
def completeFine : CompleteOracle := fun _ => .ok "fine"

/-- A completion oracle whose call raises "quota exceeded". -/
def completeQuota : CompleteOracle := fun _ => .error "quota exceeded"

/-! Helper lemmas about the chunking loop. -/

/-- Unfolding of one iteration of `chunkLoop`. -/
theorem chunkLoop_succ (words : List String) (c o start fuel : Nat) :
    chunkLoop words c o start (fuel + 1) =
      if start < words.length then
        match chunkLoop words c o (start + (c - o)) fuel with
        | none => none
        | some rest => some (" ".intercalate ((words.drop start).take c) :: rest)
      else some [] := rfl

/-- Unfolding of one iteration of `chunkSlices`. -/
theorem chunkSlices_succ (words : List String) (c o start fuel : Nat) :
    chunkSlices words c o start (fuel + 1) =
      if start < words.length then
        match chunkSlices words c o (start + (c - o)) fuel with
        | none => none
        | some rest => some ((words.drop start).take c :: rest)
      else some [] := rfl

/-- `chunkLoop` is `chunkSlices` with each slice joined by single spaces. -/
theorem chunkLoop_eq_slices (words : List String) (c o : Nat) :
    ∀ fuel start, chunkLoop words c o start fuel =
      (chunkSlices words c o start fuel).map (List.map (" ".intercalate)) := by
  intro fuel
  induction fuel with
  | zero => intro start; rfl
  | succ fuel ih =>
    intro start
    rw [chunkLoop_succ, chunkSlices_succ]
    by_cases hs : start < words.length
    · rw [if_pos hs, if_pos hs, ih]
      cases chunkSlices words c o (start + (c - o)) fuel with
      | none => rfl
      | some rest => rfl
    · rw [if_neg hs, if_neg hs]
      rfl

/-- Main structure lemma: with `overlap < chunk_size` and enough fuel, the
loop terminates and returns the windows `words[s : s + chunk_size]` for a
strictly increasing list of start offsets that begins at the initial `start`,
and every word position from `start` on is inside at least one window. -/
theorem chunkSlices_spec (words : List String) (c o : Nat) (ho : o < c) :
    ∀ fuel start, words.length - start < fuel →
    ∃ starts : List Nat,
      chunkSlices words c o start fuel =
        some (starts.map fun s => (words.drop s).take c) ∧
      starts.Chain' (· < ·) ∧
      (∀ s ∈ starts, start ≤ s) ∧
      (∀ i, start ≤ i → i < words.length → ∃ s ∈ starts, s ≤ i ∧ i < s + c) := by
  intro fuel
  induction fuel with
  | zero => intro start h; omega
  | succ fuel ih =>
    intro start h
    by_cases hs : start < words.length
    · obtain ⟨starts, heq, hchain, hge, hcov⟩ := ih (start + (c - o)) (by omega)
      refine ⟨start :: starts, ?_, ?_, ?_, ?_⟩
      · rw [chunkSlices_succ, if_pos hs, heq]
        rfl
      · rw [List.chain'_cons']
        refine ⟨?_, hchain⟩
        intro b hb
        have hb' := hge b (List.mem_of_mem_head? hb)
        omega
      · intro s hs'
        rcases List.mem_cons.mp hs' with rfl | hmem
        · exact Nat.le_refl _
        · have := hge s hmem
          omega
      · intro i hi hilen
        by_cases hlt : i < start + (c - o)
        · exact ⟨start, List.mem_cons_self _ _, hi, by omega⟩
        · obtain ⟨s, hsmem, h1, h2⟩ := hcov i (by omega) hilen
          exact ⟨s, List.mem_cons_of_mem _ hsmem, h1, h2⟩
    · refine ⟨[], ?_, List.chain'_nil, ?_, ?_⟩
      · rw [chunkSlices_succ, if_neg hs]
        rfl
      · intro s hs'
        exact absurd hs' (List.not_mem_nil s)
      · intro i hi hilen
        omega

/-- With `overlap < chunk_size` the default fuel `words.length + 1` always
suffices: `chunk_text` returns `some`. -/
theorem chunk_text_isSome (text : String) (c o : Nat) (ho : o < c) :
    (chunk_text text c o).isSome := by
  obtain ⟨starts, heq, -, -, -⟩ :=
    chunkSlices_spec (pySplit text) c o ho ((pySplit text).length + 1) 0 (by omega)
  unfold chunk_text
  rw [chunkLoop_eq_slices, heq]
  rfl

/-! Helper lemmas about `pySplit` on the concrete texts. -/

/-- Appending " a" to the raw characters appends one word "a" to the split. -/
theorem splitWordsAux_append_space_a (d : List Char) :
    ∀ acc, splitWordsAux (d ++ [' ', 'a']) acc = splitWordsAux d acc ++ ["a"] := by
  induction d with
  | nil =>
    intro acc
    by_cases h : acc.isEmpty
    · simp +decide [splitWordsAux, h]
    · simp +decide [splitWordsAux, h]
  | cons c cs ih =>
    intro acc
    by_cases hw : c.isWhitespace
    · by_cases h : acc.isEmpty
      · simp +decide [splitWordsAux, hw, h, ih]
      · simp +decide [splitWordsAux, hw, h, ih]
    · simp +decide [splitWordsAux, hw, ih]

/-- The word list of `aText n` is `n + 1` copies of "a". -/
theorem pySplit_aText (n : Nat) : pySplit (aText n) = List.replicate (n + 1) "a" := by
  induction n with
  | zero => rfl
  | succ n ih =>
    have hdata : (aText (n + 1)).data = (aText n).data ++ [' ', 'a'] := by
      show (aText n ++ " a").data = _
      rw [String.data_append]
    unfold pySplit
    rw [hdata, splitWordsAux_append_space_a]
    have hih : splitWordsAux (aText n).data [] = List.replicate (n + 1) "a" := ih
    rw [hih, ← List.replicate_succ' (n + 1) "a"]

/-! Helper lemmas about `generate_answer`. -/

/-- When the search succeeds, `generate_answer` returns the `genAnswer` text
and the caller's history extended in place by the bare user message and the
assistant answer. -/
theorem generate_answer_eq (search : SearchOracle) (complete : CompleteOracle)
    (q : String) (h : List Msg) (rs : List (Option String))
    (hs : search q 10 = .ok rs) :
    generate_answer search complete q h =
      .ok (genAnswer complete q h rs,
        h ++ [⟨"user", q⟩, ⟨"assistant", genAnswer complete q h rs⟩]) := by
  unfold generate_answer get_top_chunks
  rw [hs]
  rfl

/-- When the search raises, nothing catches the exception: `generate_answer`
propagates it. -/
theorem generate_answer_eq_error (search : SearchOracle) (complete : CompleteOracle)
    (q : String) (h : List Msg) (e : String)
    (hs : search q 10 = .error e) :
    generate_answer search complete q h = .error e := by
  unfold generate_answer get_top_chunks
  rw [hs]

/-- The substituted error answer is never the empty string. -/
theorem error_answer_ne_empty (e : String) :
    "Error generating response: " ++ e ≠ "" := by
  intro hcontra
  have hl := congrArg String.length hcontra
  rw [String.length_append] at hl
  have h27 : ("Error generating response: " : String).length = 27 := by decide
  have h0 : ("" : String).length = 0 := by decide
  rw [h27, h0] at hl
  omega

/-- The context-injection content is strictly longer than the bare query, so
the two user messages can never coincide. -/
theorem contextMsg_content_ne (ct q : String) :
    "Context:\n" ++ ct ++ "\n\nQuestion: " ++ q ≠ q := by
  intro hcontra
  have hl := congrArg String.length hcontra
  simp only [String.length_append] at hl
  have h9 : ("Context:\n" : String).length = 9 := by decide
  have h12 : ("\n\nQuestion: " : String).length = 12 := by decide
  rw [h9, h12] at hl
  omega

/-! Claim theorems. -/

/-- Claim C1 (code_bug evaluation): with `overlap >= chunk_size` on any text
with at least one word, the source's `while` loop never advances `start`, so
no amount of fuel completes it — `chunk_text` raises no ConfigurationError
(none exists in the code); it simply never terminates. -/
theorem chunkLoop_no_advance (text : String) (chunk_size overlap : Nat)
    (hco : chunk_size ≤ overlap) (hne : pySplit text ≠ []) :
    ∀ fuel, chunkLoop (pySplit text) chunk_size overlap 0 fuel = none := by
  have hlen : 0 < (pySplit text).length := List.length_pos.mpr hne
  have hadv : chunk_size - overlap = 0 := by omega
  intro fuel
  induction fuel with
  | zero => rfl
  | succ fuel ih =>
    rw [chunkLoop_succ, if_pos hlen, hadv]
    simp only [Nat.add_zero]
    rw [ih]

/-- Witness for `chunkLoop_no_advance` at chunk_size = overlap = 100 on the
three-word text "a b c" (the spec's own example C=100, O=100). -/
theorem chunkLoop_no_advance_witness :
    100 ≤ 100 ∧ pySplit "a b c" ≠ [] ∧
      ∀ fuel, chunkLoop (pySplit "a b c") 100 100 0 fuel = none :=
  ⟨by decide, by decide, chunkLoop_no_advance "a b c" 100 100 (by decide) (by decide)⟩

/-- Claim C10: for `overlap < chunk_size` the chunking loop terminates — any
fuel beyond the word count completes it, and in particular `chunk_text` (which
runs it with fuel `word count + 1`) returns a result. -/
theorem chunk_text_terminates (T : String) (chunk_size overlap : Nat)
    (ho : overlap < chunk_size) :
    (∀ fuel, (pySplit T).length < fuel →
      (chunkLoop (pySplit T) chunk_size overlap 0 fuel).isSome) ∧
    (chunk_text T chunk_size overlap).isSome := by
  constructor
  · intro fuel hf
    obtain ⟨starts, heq, -, -, -⟩ :=
      chunkSlices_spec (pySplit T) chunk_size overlap ho fuel 0 (by omega)
    rw [chunkLoop_eq_slices, heq]
    rfl
  · exact chunk_text_isSome T chunk_size overlap ho

/-- Witness for `chunk_text_terminates` on "a b c" with chunk size 2 and
overlap 1. -/
theorem chunk_text_terminates_witness :
    1 < 2 ∧
    ((∀ fuel, (pySplit "a b c").length < fuel →
        (chunkLoop (pySplit "a b c") 2 1 0 fuel).isSome) ∧
      (chunk_text "a b c" 2 1).isSome) :=
  ⟨by decide, chunk_text_terminates "a b c" 2 1 (by decide)⟩

/-- Claim C7: for a non-empty text and valid parameters, the produced chunks
are the windows `words[s : s + chunk_size]` (joined by single spaces) for a
strictly increasing list of start offsets, every word position lies inside at
least one window, and hence every word of the text appears in at least one
chunk; the window representation at increasing offsets is the order
preservation within and across chunks. -/
theorem chunk_text_covers (T : String) (chunk_size overlap : Nat)
    (hT : T ≠ "") (hc : 0 < chunk_size) (ho : overlap < chunk_size) :
    ∃ starts : List Nat,
      chunk_text T chunk_size overlap =
        some (starts.map fun s =>
          " ".intercalate (((pySplit T).drop s).take chunk_size)) ∧
      starts.Chain' (· < ·) ∧
      (∀ i, i < (pySplit T).length →
        ∃ s ∈ starts, s ≤ i ∧ i < s + chunk_size) ∧
      (∀ w ∈ pySplit T, ∃ s ∈ starts,
        w ∈ ((pySplit T).drop s).take chunk_size) := by
  obtain ⟨starts, heq, hchain, hge, hcov⟩ :=
    chunkSlices_spec (pySplit T) chunk_size overlap ho ((pySplit T).length + 1) 0 (by omega)
  refine ⟨starts, ?_, hchain, ?_, ?_⟩
  · unfold chunk_text
    rw [chunkLoop_eq_slices, heq]
    simp [List.map_map, Function.comp]
  · intro i hi
    exact hcov i (Nat.zero_le i) hi
  · intro w hw
    obtain ⟨i, hi, hgi⟩ := List.mem_iff_getElem.mp hw
    obtain ⟨s, hsmem, h1, h2⟩ := hcov i (Nat.zero_le i) hi
    refine ⟨s, hsmem, ?_⟩
    have hsome : (((pySplit T).drop s).take chunk_size)[i - s]? = some w := by
      rw [List.getElem?_take, if_pos (by omega), List.getElem?_drop]
      have hadd : s + (i - s) = i := by omega
      rw [hadd, List.getElem?_eq_getElem hi, hgi]
    exact List.getElem?_mem hsome

/-- Witness for `chunk_text_covers` on the five-word text `aText 4` with
chunk size 2 and overlap 1. -/
theorem chunk_text_covers_witness :
    aText 4 ≠ "" ∧ 0 < 2 ∧ 1 < 2 ∧
    (∃ starts : List Nat,
      chunk_text (aText 4) 2 1 =
        some (starts.map fun s =>
          " ".intercalate (((pySplit (aText 4)).drop s).take 2)) ∧
      starts.Chain' (· < ·) ∧
      (∀ i, i < (pySplit (aText 4)).length →
        ∃ s ∈ starts, s ≤ i ∧ i < s + 2) ∧
      (∀ w ∈ pySplit (aText 4), ∃ s ∈ starts,
        w ∈ ((pySplit (aText 4)).drop s).take 2)) :=
  ⟨by decide, by decide, by decide,
    chunk_text_covers (aText 4) 2 1 (by decide) (by decide) (by decide)⟩

/-- Claim C6: on a 1000-word text, `chunk_text(T, 500, 50)` yields exactly the
three chunks that start at word offsets 0, 450 and 900 (each chunk the window
of the next 500 words from its offset), the first word of chunk `k` is the
word at offset 0 / 450 / 900, and the third chunk has only 100 words. -/
theorem chunk_text_1000 (T : String) (h : (pySplit T).length = 1000) :
    chunk_text T 500 50 =
      some [" ".intercalate ((pySplit T).take 500),
        " ".intercalate (((pySplit T).drop 450).take 500),
        " ".intercalate (((pySplit T).drop 900).take 500)] ∧
    ((pySplit T).take 500)[0]? = (pySplit T)[0]? ∧
    (((pySplit T).drop 450).take 500)[0]? = (pySplit T)[450]? ∧
    (((pySplit T).drop 900).take 500)[0]? = (pySplit T)[900]? ∧
    (((pySplit T).drop 900).take 500).length = 100 := by
  have e3 : chunkSlices (pySplit T) 500 50 1350 998 = some [] := by
    rw [show (998 : Nat) = 997 + 1 from rfl, chunkSlices_succ, if_neg (by omega)]
  have e2 : chunkSlices (pySplit T) 500 50 900 999 =
      some [((pySplit T).drop 900).take 500] := by
    rw [show (999 : Nat) = 998 + 1 from rfl, chunkSlices_succ, if_pos (by omega)]
    have h9 : 900 + (500 - 50) = 1350 := by norm_num
    rw [h9, e3]
  have e1 : chunkSlices (pySplit T) 500 50 450 1000 =
      some [((pySplit T).drop 450).take 500, ((pySplit T).drop 900).take 500] := by
    rw [show (1000 : Nat) = 999 + 1 from rfl, chunkSlices_succ, if_pos (by omega)]
    have h4 : 450 + (500 - 50) = 900 := by norm_num
    rw [h4, e2]
  have e0 : chunkSlices (pySplit T) 500 50 0 (1000 + 1) =
      some [(pySplit T).take 500, ((pySplit T).drop 450).take 500,
        ((pySplit T).drop 900).take 500] := by
    rw [chunkSlices_succ, if_pos (by omega)]
    have h0 : 0 + (500 - 50) = 450 := by norm_num
    rw [h0, e1, List.drop_zero]
  refine ⟨?_, ?_, ?_, ?_, ?_⟩
  · show chunkLoop (pySplit T) 500 50 0 ((pySplit T).length + 1) = _
    rw [chunkLoop_eq_slices, h, e0]
    rfl
  · rw [List.getElem?_take, if_pos (by omega)]
  · rw [List.getElem?_take, if_pos (by omega), List.getElem?_drop]
  · rw [List.getElem?_take, if_pos (by omega), List.getElem?_drop]
  · rw [List.length_take, List.length_drop, h]
    omega

/-- Claim C4 counterexample: with an Index Store whose query raises, the code
does not degrade to an empty-context answer — the exception propagates to the
caller and no `ok` result exists. -/
theorem generate_answer_store_error_counterexample :
    generate_answer searchDown completeFine "q" [] = Except.error "search down" ∧
    ∀ ans h', generate_answer searchDown completeFine "q" [] ≠ Except.ok (ans, h') := by
  have heval : generate_answer searchDown completeFine "q" [] =
      Except.error "search down" := rfl
  refine ⟨heval, ?_⟩
  intro ans h' hok
  rw [heval] at hok
  exact Except.noConfusion hok

/-- Claim C4 (amended): a StoreError raised by the Index Store query is not
caught anywhere in `generate_answer` — it propagates to the caller unchanged
(there is no empty-context fallback for query failures; the empty context
block arises only when the query succeeds with zero usable results). -/
theorem generate_answer_propagates_store_error (search : SearchOracle)
    (complete : CompleteOracle) (q : String) (h : List Msg) (e : String)
    (hs : search q 10 = .error e) :
    generate_answer search complete q h = .error e :=
  generate_answer_eq_error search complete q h e hs

/-- Witness for `generate_answer_propagates_store_error` on concrete oracles. -/
theorem generate_answer_propagates_store_error_witness :
    searchDown "hello" 10 = .error "search down" ∧
    generate_answer searchDown completeQuota "hello" [⟨"user", "old"⟩] =
      .error "search down" :=
  ⟨rfl, generate_answer_propagates_store_error searchDown completeQuota
    "hello" [⟨"user", "old"⟩] "search down" rfl⟩

/-- Claim C5: if the Generation Provider fails (with any message `e`), the
exception is caught: `generate_answer` returns normally with the answer string
`"Error generating response: " ++ e` — which contains the failure reason — and
still appends both the bare user message and the assistant message to the
history. -/
theorem generate_answer_provider_failure (search : SearchOracle)
    (complete : CompleteOracle) (q : String) (h : List Msg)
    (rs : List (Option String)) (e : String)
    (hs : search q 10 = .ok rs)
    (hc : ∀ ms, complete ms = .error e) :
    generate_answer search complete q h =
      .ok ("Error generating response: " ++ e,
        h ++ [⟨"user", q⟩,
          ⟨"assistant", "Error generating response: " ++ e⟩]) := by
  have hg : genAnswer complete q h rs = "Error generating response: " ++ e := by
    unfold genAnswer
    rw [hc]
  rw [generate_answer_eq search complete q h rs hs, hg]

/-- Witness for `generate_answer_provider_failure`: quota-failing provider on
an empty history. -/
theorem generate_answer_provider_failure_witness :
    searchEmpty "hi" 10 = .ok [] ∧
    (∀ ms, completeQuota ms = .error "quota exceeded") ∧
    generate_answer searchEmpty completeQuota "hi" [] =
      .ok ("Error generating response: " ++ "quota exceeded",
        [] ++ [⟨"user", "hi"⟩,
          ⟨"assistant", "Error generating response: " ++ "quota exceeded"⟩]) :=
  ⟨rfl, fun _ => rfl,
    generate_answer_provider_failure searchEmpty completeQuota "hi" [] []
      "quota exceeded" rfl (fun _ => rfl)⟩

/-- Claim C8: with a search that succeeds with zero results, and a provider
that never returns an empty success, `generate_answer` still returns normally:
a non-empty answer, and a history that is the input plus exactly two messages,
the first being a user message whose content is the bare query. -/
theorem generate_answer_zero_results (search : SearchOracle)
    (complete : CompleteOracle) (q : String) (h : List Msg)
    (hs : search q 10 = .ok [])
    (hne : ∀ ms s, complete ms = .ok s → s ≠ "") :
    ∃ ans, generate_answer search complete q h =
        .ok (ans, h ++ [⟨"user", q⟩, ⟨"assistant", ans⟩]) ∧ ans ≠ "" := by
  refine ⟨genAnswer complete q h [], generate_answer_eq search complete q h [] hs, ?_⟩
  unfold genAnswer
  cases hcm : complete (promptMsgs q h []) with
  | ok s => exact hne _ s hcm
  | error e => exact error_answer_ne_empty e

/-- Witness for `generate_answer_zero_results` with concrete oracles. -/
theorem generate_answer_zero_results_witness :
    searchEmpty "hi" 10 = .ok [] ∧
    (∀ ms s, completeFine ms = .ok s → s ≠ "") ∧
    ∃ ans, generate_answer searchEmpty completeFine "hi" [] =
        .ok (ans, [] ++ [⟨"user", "hi"⟩, ⟨"assistant", ans⟩]) ∧ ans ≠ "" := by
  refine ⟨rfl, ?_, ?_⟩
  · intro ms s hok
    cases hok
    decide
  · exact generate_answer_zero_results searchEmpty completeFine "hi" [] rfl
      (fun ms s hok => by cases hok; decide)

/-- Claim C9: whatever the oracles do, whenever `generate_answer` returns a
history it is the input plus exactly a user and an assistant message; so the
messages it persists all have role "user" or "assistant", and neither the
system instruction message nor any context-injection message is ever among
them. -/
theorem generate_answer_persists_only_user_assistant (search : SearchOracle)
    (complete : CompleteOracle) (q : String) (h : List Msg)
    (ans : String) (h' : List Msg)
    (hok : generate_answer search complete q h = .ok (ans, h')) :
    h' = h ++ [⟨"user", q⟩, ⟨"assistant", ans⟩] ∧
    (∀ m ∈ h'.drop h.length, m.role = "user" ∨ m.role = "assistant") ∧
    systemMsg ∉ h'.drop h.length ∧
    (∀ ct : String, contextMsg ct q ∉ h'.drop h.length) := by
  cases hs : search q 10 with
  | error e =>
    rw [generate_answer_eq_error search complete q h e hs] at hok
    exact Except.noConfusion hok
  | ok rs =>
    rw [generate_answer_eq search complete q h rs hs] at hok
    simp only [Except.ok.injEq, Prod.mk.injEq] at hok
    obtain ⟨hans, hh'⟩ := hok
    subst hans
    subst hh'
    rw [List.drop_left]
    refine ⟨rfl, ?_, ?_, ?_⟩
    · intro m hm
      simp only [List.mem_cons, List.not_mem_nil, or_false] at hm
      rcases hm with rfl | rfl
      · exact Or.inl rfl
      · exact Or.inr rfl
    · intro hmem
      simp only [List.mem_cons, List.not_mem_nil, or_false] at hmem
      rcases hmem with h1 | h2
      · have hrole : ("system" : String) = "user" := congrArg Msg.role h1
        exact absurd hrole (by decide)
      · have hrole : ("system" : String) = "assistant" := congrArg Msg.role h2
        exact absurd hrole (by decide)
    · intro ct hmem
      simp only [List.mem_cons, List.not_mem_nil, or_false] at hmem
      rcases hmem with h1 | h2
      · have hcontent : "Context:\n" ++ ct ++ "\n\nQuestion: " ++ q = q :=
          congrArg Msg.content h1
        exact contextMsg_content_ne ct q hcontent
      · have hrole : ("user" : String) = "assistant" := congrArg Msg.role h2
        exact absurd hrole (by decide)

/-- Witness for `generate_answer_persists_only_user_assistant` on concrete
oracles. -/
theorem generate_answer_persists_only_user_assistant_witness :
    generate_answer searchEmpty completeFine "hi" [] =
      .ok ("fine", [⟨"user", "hi"⟩, ⟨"assistant", "fine"⟩]) ∧
    ([⟨"user", "hi"⟩, ⟨"assistant", "fine"⟩] =
        ([] : List Msg) ++ [⟨"user", "hi"⟩, ⟨"assistant", "fine"⟩] ∧
      (∀ m ∈ List.drop (List.length ([] : List Msg))
          [Msg.mk "user" "hi", Msg.mk "assistant" "fine"],
        m.role = "user" ∨ m.role = "assistant") ∧
      systemMsg ∉ List.drop (List.length ([] : List Msg))
          [Msg.mk "user" "hi", Msg.mk "assistant" "fine"] ∧
      (∀ ct : String, contextMsg ct "hi" ∉ List.drop (List.length ([] : List Msg))
          [Msg.mk "user" "hi", Msg.mk "assistant" "fine"])) :=
  ⟨rfl, generate_answer_persists_only_user_assistant searchEmpty completeFine
    "hi" [] "fine" [⟨"user", "hi"⟩, ⟨"assistant", "fine"⟩] rfl⟩

/-- Claim C3 counterexample: the caller's history list is mutated in place
before the call returns — on a concrete call, not every observed state strictly
before the return equals the input history (the penultimate state already
contains the appended user message). -/
theorem generate_answer_trace_counterexample :
    ¬ ∀ st ∈ (generate_answer_origTrace searchEmpty completeFine "hi" []).dropLast,
        st = ([] : List Msg) := by
  decide

/-- Claim C3 (amended): the working copy is genuinely independent — at every
observation point before the final history update (entries 0-5 of the trace,
covering the deep copy and both prompt-message appends) the caller's list is
unchanged; the call then mutates it in place by appending exactly the bare
user message and then the assistant answer (entries 6 and 7), and returns
that same extended list. -/
theorem generate_answer_trace (search : SearchOracle) (complete : CompleteOracle)
    (q : String) (h : List Msg) (rs : List (Option String))
    (hs : search q 10 = .ok rs) :
    (generate_answer_origTrace search complete q h).take 6 = List.replicate 6 h ∧
    generate_answer_origTrace search complete q h =
      List.replicate 6 h ++
        [h ++ [⟨"user", q⟩],
          h ++ [⟨"user", q⟩, ⟨"assistant", genAnswer complete q h rs⟩]] ∧
    generate_answer search complete q h =
      .ok (genAnswer complete q h rs,
        h ++ [⟨"user", q⟩, ⟨"assistant", genAnswer complete q h rs⟩]) := by
  refine ⟨?_, ?_, generate_answer_eq search complete q h rs hs⟩
  · unfold generate_answer_origTrace get_top_chunks
    rw [hs]
    rfl
  · unfold generate_answer_origTrace get_top_chunks
    rw [hs]
    rfl

/-- Witness for `generate_answer_trace` on concrete oracles. -/
theorem generate_answer_trace_witness :
    searchEmpty "hi" 10 = .ok [] ∧
    ((generate_answer_origTrace searchEmpty completeFine "hi" []).take 6 =
        List.replicate 6 [] ∧
      generate_answer_origTrace searchEmpty completeFine "hi" [] =
        List.replicate 6 [] ++
          [[] ++ [⟨"user", "hi"⟩],
            [] ++ [⟨"user", "hi"⟩,
              ⟨"assistant", genAnswer completeFine "hi" [] []⟩]] ∧
      generate_answer searchEmpty completeFine "hi" [] =
        .ok (genAnswer completeFine "hi" [] [],
          [] ++ [⟨"user", "hi"⟩,
            ⟨"assistant", genAnswer completeFine "hi" [] []⟩])) :=
  ⟨rfl, generate_answer_trace searchEmpty completeFine "hi" [] [] rfl⟩

/-- Witness for `chunk_text_1000` on the concrete 1000-word text `aText 999`. -/
theorem chunk_text_1000_witness :
    (pySplit (aText 999)).length = 1000 ∧
    (chunk_text (aText 999) 500 50 =
      some [" ".intercalate ((pySplit (aText 999)).take 500),
        " ".intercalate (((pySplit (aText 999)).drop 450).take 500),
        " ".intercalate (((pySplit (aText 999)).drop 900).take 500)] ∧
    ((pySplit (aText 999)).take 500)[0]? = (pySplit (aText 999))[0]? ∧
    (((pySplit (aText 999)).drop 450).take 500)[0]? = (pySplit (aText 999))[450]? ∧
    (((pySplit (aText 999)).drop 900).take 500)[0]? = (pySplit (aText 999))[900]? ∧
    (((pySplit (aText 999)).drop 900).take 500).length = 100) := by
  have hlen : (pySplit (aText 999)).length = 1000 := by
    rw [pySplit_aText, List.length_replicate]
  exact ⟨hlen, chunk_text_1000 (aText 999) hlen⟩

/-- Claim C2 counterexample: on the 3-document batch where document 2's parse
raises, the script does not skip and continue — only document 1 is uploaded
(document 3 is never reached, so there are not 2 successful documents) and the
exception escapes. -/
theorem ingest_counterexample :
    (ingest embedOK [docA, docB, docC]).1.map UploadBatch.blobName = ["a.pdf"] ∧
    (ingest embedOK [docA, docB, docC]).2 = some "corrupt" := by
  constructor
  · rfl
  · rfl

/-- Claim C2 (amended): the ingestion loop catches nothing, so when the
Document Extractor fails on one document the pipeline does not skip it and
continue — the exception propagates and aborts the run: the uploads are
exactly those of the documents before the failing one, and the failing
document and every document after it contribute zero records. -/
theorem ingest_aborts_on_extraction_error (pre post : List BlobDoc)
    (name e : String) (embed : String → Except String (List Int))
    (hpdf : pyEndsWith name ".pdf" = true)
    (hpre : (ingest embed pre).2 = none) :
    ingest embed (pre ++ ⟨name, Except.error e⟩ :: post) =
      ((ingest embed pre).1, some e) := by
  induction pre with
  | nil =>
    simp only [List.nil_append, ingest, hpdf, if_true]
  | cons b pre ih =>
    by_cases hb : pyEndsWith b.name ".pdf" = true
    · cases hparse : b.parse with
      | error e' =>
        exfalso
        simp only [ingest, hb, if_true, hparse] at hpre
        exact Option.noConfusion hpre
      | ok pages =>
        cases hemb : embedChunks embed
            ((chunk_text (read_pdf_from_blob pages) 500 50).getD []) with
        | error e'' =>
          exfalso
          simp only [ingest, hb, if_true, hparse, hemb] at hpre
          exact Option.noConfusion hpre
        | ok docs =>
          have hpre' : (ingest embed pre).2 = none := by
            by_cases hd : docs = [] <;>
              simp [ingest, hb, hparse, hemb, hd] at hpre <;>
              exact hpre
          have hrec := ih hpre'
          by_cases hd : docs = [] <;>
            simp [List.cons_append, ingest, hb, hparse, hemb, hd, hrec]
    · simp only [List.cons_append, ingest, hb, if_false]
      simp only [ingest, hb, if_false] at hpre
      exact ih hpre

/-- Witness for `ingest_aborts_on_extraction_error`: the concrete 3-document
batch with document 2 failing. -/
theorem ingest_aborts_on_extraction_error_witness :
    pyEndsWith "b.pdf" ".pdf" = true ∧
    (ingest embedOK [docA]).2 = none ∧
    ingest embedOK ([docA] ++ ⟨"b.pdf", Except.error "corrupt"⟩ :: [docC]) =
      ((ingest embedOK [docA]).1, some "corrupt") :=
  ⟨rfl, rfl,
    ingest_aborts_on_extraction_error [docA] [docC] "b.pdf" "corrupt" embedOK rfl rfl⟩
